import Mathlib

/-!
Verification development for the noor-delivery/open-route-service gateway.

The development shallowly embeds the two Go source files:
- src/auth/main.go: the JWT-validating middleware (validateJWT) and the
  reverse-proxy handler (proxyHandler);
- the logger package: NewLogger, StartListener, the submission operations
  (Error, ErrorF, ErrorStr, Warn, WarnF, Info, InfoF) and the consumer loop.

Strings are Lean Strings; the handful of Go standard-library string
operations used by the code (strings.TrimPrefix, strings.Split on ".",
the path/query split of net/url) are embedded over the character list of
the String so that all definitions reduce in the kernel.
-/

namespace ORS

/-- Go strings.HasPrefix: whether pre is a prefix of s. -/
def hasPrefixStr (s pre : String) : Bool :=
  pre.toList.isPrefixOf s.toList

/-- Go strings.TrimPrefix: drops the leading prefix when present, otherwise
returns the string unchanged. -/
def trimPrefixStr (s pre : String) : String :=
  if hasPrefixStr s pre then ⟨s.toList.drop pre.toList.length⟩ else s

/-- Go strings.Split restricted to a single-character separator: splits the
character list at every occurrence of the separator, keeping empty segments. -/
def splitOnChar (c : Char) : List Char → List (List Char)
  | [] => [[]]
  | x :: xs =>
    match splitOnChar c xs with
    | [] => [[]]
    | h :: t => if x == c then [] :: h :: t else (x :: h) :: t

/-- Structural segment check performed by github.com/golang-jwt/jwt/v4 when
tokenizing a compact JWT: strings.Split(token, ".") must yield exactly three
segments, otherwise the token is malformed. -/
def segmentsOk (s : String) : Bool :=
  (splitOnChar '.' s.toList).length == 3

/-- Go strings.Cut at the first occurrence of a character: the part before it
and, when the character occurs, the part after it. -/
def cutChar (c : Char) : List Char → List Char × Option (List Char)
  | [] => ([], none)
  | x :: xs =>
    if x == c then ([], some xs)
    else
      let r := cutChar c xs
      (x :: r.1, r.2)

/-! ## HTTP headers

net/http represents headers as a multimap; the embedding uses the flat list
of key-value pairs, in insertion order. Keys are assumed already in the
canonical MIME form in which net/http stores parsed request headers. -/

/-- A header multimap as the list of its key-value pairs in insertion order. -/
abbrev Header : Type := List (String × String)

/-- The empty header map, as created by http.NewRequest for the outbound
request. -/
def emptyHeader : Header := ([] : List (String × String))

/-- Header.Get: the first value associated with the key, or the empty string
when the key is absent (so an absent header and an empty one are
indistinguishable to the caller). -/
def headerGet (h : Header) (k : String) : String :=
  match List.find? (fun p => p.1 == k) h with
  | some p => p.2
  | none => ""

/-- Header.Add: appends the value to the values stored under the key,
replacing nothing. -/
def headerAdd (h : Header) (k v : String) : Header :=
  h ++ [(k, v)]

/-- All values stored under a key, in order. -/
def headerValues (h : Header) (k : String) : List String :=
  List.map Prod.snd (List.filter (fun p => p.1 == k) h)

/-- The header-copy loop of proxyHandler (src/auth/main.go:101-105 and
117-121): for every key of src, every one of its values is added to dst with
Header.Add. -/
def copyHeaders (src dst : Header) : Header :=
  List.foldl (fun (d : Header) p => headerAdd d p.1 p.2) dst src

/-! ## URLs and requests -/

/-- The fields of net/url.URL the gateway touches: the path (which excludes
the query string) and the raw query. -/
structure URL where
  path : String
  rawQuery : String
deriving DecidableEq

/-- The request-URI parsing performed by net/http when the request line is
read: the URI is cut at the first question mark into the path and the raw
query (escaping is not modelled; none of the inputs of interest use it). -/
def parseRequestURI (s : String) : URL :=
  match cutChar '?' s.toList with
  | (p, none) => { path := ⟨p⟩, rawQuery := "" }
  | (p, some q) => { path := ⟨p⟩, rawQuery := ⟨q⟩ }

/-- net/url URL.RequestURI restricted to path and query: the path, followed
by the question mark and the raw query when a query component is present. -/
def requestURI (u : URL) : String :=
  if u.rawQuery == "" then u.path else u.path ++ "?" ++ u.rawQuery

/-- An inbound HTTP request as the gateway sees it. -/
structure Request where
  method : String
  url : URL
  header : Header
  body : String
deriving DecidableEq

/-! ## Token claims and the JWT library model -/

/-- sql.NullString: a string together with a validity flag. -/
structure NullString where
  string : String
  valid : Bool
deriving DecidableEq

/-- UserJwtClaims (src/auth/main.go:28-33). -/
structure UserJwtClaims where
  Id : Int
  FirstName : NullString
  LastName : NullString
  Role : String
deriving DecidableEq

/-- MyCustomClaims (src/auth/main.go:35-39): the user claims with a claim
type discriminator; the registered claim fields are modelled only through
their validation outcome (the expired flag of TokenSemantics). -/
structure MyCustomClaims extends UserJwtClaims where
  type : String
deriving DecidableEq

/-- The signing algorithms of github.com/golang-jwt/jwt relevant here. -/
inductive Alg where
  | HS256
  | HS384
  | HS512
  | RS256
  | ES256
  | EdDSA
  | algNone
deriving DecidableEq

/-- Whether the method is of the symmetric HMAC family, the test performed by
the keyfunc of validateJWT (the type assertion to jwt.SigningMethodHMAC at
src/auth/main.go:61). -/
def Alg.isHMAC : Alg → Bool
  | .HS256 => true
  | .HS384 => true
  | .HS512 => true
  | _ => false

/-- The semantic content of a bearer-token string, abstracting the
base64/JSON decoding and HMAC computation of github.com/golang-jwt/jwt/v4:
whether the three segments decode, the algorithm declared in the token
header, the key the signature was produced with (an HMAC signature verifies
under a key exactly when it is the signing key), whether registered-claims
validation fails (expiry in the past), and the decoded claim set. -/
structure TokenSemantics where
  decodeOk : Bool
  alg : Alg
  signedWith : String
  expired : Bool
  claims : MyCustomClaims
deriving DecidableEq

/-- Outcome of jwt.ParseWithClaims as observed by validateJWT: either a
classified failure (err is non-nil or token.Valid is false) or the verified
claim set. -/
inductive ParseResult where
  | malformed
  | badAlg
  | badSignature
  | expired
  | ok (claims : MyCustomClaims)
deriving DecidableEq

/-- jwt.ParseWithClaims with the keyfunc of validateJWT
(src/auth/main.go:60-66): tokenize into three segments, decode them, obtain
the key from the keyfunc (which rejects any non-HMAC signing method and
returns jwtSecret), verify the signature under the symmetric key, and
validate the registered claims. Any failure surfaces to validateJWT as a
non-nil err or an invalid token. -/
def parseWithClaims (secret : String) (sem : TokenSemantics) (s : String) : ParseResult :=
  if segmentsOk s then
    if sem.decodeOk then
      if sem.alg.isHMAC then
        if sem.signedWith == secret then
          if sem.expired then .expired else .ok sem.claims
        else .badSignature
      else .badAlg
    else .malformed
  else .malformed

/-- The variadic membership helper In (src/auth/main.go:16-24): walks the
candidates and returns true at the first one equal to the item. -/
def In {T : Type} [BEq T] (item : T) : List T → Bool
  | [] => false
  | i :: rest => if i == item then true else In item rest

/-- The fixed role allow-set, in the order the call at src/auth/main.go:75
lists it. -/
def allowedRoles : List String :=
  ["ADMIN", "USER", "COURIER", "MANAGER", "CLIENT", "VENDOR"]

/-! ## The gate and the proxy handler

The caller-visible effects of one request are collected into a HandlerOutput:
the ordered writes performed on the http.ResponseWriter, the diagnostics
submitted to the logger, the outbound request constructed for the upstream
(none when construction never happened or failed), and whether client.Do was
invoked at all (whether the upstream was contacted). -/

/-- One write performed on the http.ResponseWriter, in order: adding a
response header, committing the status code, writing body bytes, or a call
to http.Error (which itself writes a status code and an error body). -/
inductive WriteEvent where
  | headerAdd (key value : String)
  | writeHeader (status : Nat)
  | writeBody (chunk : String)
  | httpError (body : String) (status : Nat)
deriving DecidableEq

/-- The outbound request built by http.NewRequest plus the header-copy loop. -/
structure OutRequest where
  method : String
  url : String
  header : Header
  body : String
deriving DecidableEq

/-- The observable outcome of handling one inbound request. -/
structure HandlerOutput where
  events : List WriteEvent
  diagnostics : List String
  outbound : Option OutRequest
  dispatched : Bool
deriving DecidableEq

/-- The upstream response as client.Do returns it. -/
structure UpstreamResponse where
  statusCode : Nat
  header : Header
  body : String
deriving DecidableEq

/-- The environment a single proxyHandler run interacts with: whether
http.NewRequest succeeds (it fails only on an unparsable target URL), the
result of client.Do (none models a network or 10-second-timeout error), and
whether io.Copy relays the whole body (when it fails partway, truncatedBody
is the chunk that had already been relayed). -/
structure ProxyEnv where
  newRequestOk : Bool
  doResult : Option UpstreamResponse
  copyOk : Bool
  truncatedBody : String
deriving DecidableEq

/-- proxyHandler (src/auth/main.go:89-127). The target URL is targetDomain
concatenated with r.URL.Path; on construction failure it answers 500 and
logs; the inbound headers are copied additively onto the fresh outbound
header map; on dispatch failure it answers 502 and logs; on success it adds
every upstream response header, writes the upstream status, and streams the
body, and if the streaming fails partway it additionally calls http.Error
with status 500 and logs. -/
def proxyHandler (targetDomain : String) (env : ProxyEnv) (r : Request) : HandlerOutput :=
  let targetURL := targetDomain ++ r.url.path
  if env.newRequestOk then
    let req : OutRequest :=
      { method := r.method
        url := targetURL
        header := copyHeaders r.header emptyHeader
        body := r.body }
    match env.doResult with
    | none =>
        { events := [.httpError "Error forwarding request" 502]
          diagnostics := ["Error forwarding request: %v"]
          outbound := some req
          dispatched := true }
    | some resp =>
        let hdrEvents := List.map (fun p => WriteEvent.headerAdd p.1 p.2) resp.header
        if env.copyOk then
          { events := hdrEvents ++ [.writeHeader resp.statusCode, .writeBody resp.body]
            diagnostics := []
            outbound := some req
            dispatched := true }
        else
          { events := hdrEvents ++
              [.writeHeader resp.statusCode,
               .writeBody env.truncatedBody,
               .httpError "Error proxying response" 500]
            diagnostics := ["Error proxying response: %v"]
            outbound := some req
            dispatched := true }
  else
    { events := [.httpError "Error creating request" 500]
      diagnostics := ["Error creating request: %v"]
      outbound := none
      dispatched := false }

/-- The output of a bare rejection through http.Error in the middleware: one
error write, no diagnostics, no outbound request, upstream not contacted. -/
def rejectOutput (body : String) (status : Nat) : HandlerOutput :=
  { events := [.httpError body status]
    diagnostics := []
    outbound := none
    dispatched := false }

/-- validateJWT (src/auth/main.go:50-82): reads the Authorization header and
rejects 401 "Missing token" when it is empty; strips a leading "Bearer "
prefix; parses and verifies the remainder and rejects 401 "Invalid token" on
any failure; rejects 403 "Forbidden" when the role claim is outside the
allow-set; otherwise invokes the wrapped handler on the original request. -/
def validateJWT (secret : String) (sem : TokenSemantics)
    (next : Request → HandlerOutput) (r : Request) : HandlerOutput :=
  let authHeader := headerGet r.header "Authorization"
  if authHeader == "" then
    rejectOutput "Missing token" 401
  else
    let tokenString := trimPrefixStr authHeader "Bearer "
    match parseWithClaims secret sem tokenString with
    | .ok claims =>
        if In claims.Role allowedRoles then next r
        else rejectOutput "Forbidden" 403
    | _ => rejectOutput "Invalid token" 401

/-! ## The logger package

Go buffered channels are embedded as a capacity plus a FIFO buffer; a send is
enabled only while the buffer is below capacity (a producer facing a full
buffer blocks, nothing is dropped or fails), and a receive is enabled only on
a nonempty buffer and takes the oldest element. -/

/-- A buffered channel: its capacity and its current FIFO buffer. -/
structure Chan (α : Type) where
  cap : Nat
  buf : List α
deriving DecidableEq

/-- An operation attempted on a channel: a producer send or a consumer
receive. -/
inductive ChanOp (α : Type) where
  | send (x : α)
  | recv
deriving DecidableEq

/-- One step of buffered-channel semantics. The result is none when the
operation is not enabled and its caller blocks; otherwise the new channel
and, for a receive, the element received. -/
def chanStep {α : Type} (c : Chan α) : ChanOp α → Option (Chan α × Option α)
  | .send x =>
      if c.buf.length < c.cap then some ({ c with buf := c.buf ++ [x] }, none)
      else none
  | .recv =>
      match c.buf with
      | [] => none
      | y :: rest => some ({ c with buf := rest }, some y)

/-- Runs a sequence of channel operations from a state; none when some
operation in the sequence is not enabled at its turn. On success, the final
channel and the list of elements received, in order. -/
def runTrace {α : Type} (c : Chan α) : List (ChanOp α) → Option (Chan α × List α)
  | [] => some (c, [])
  | op :: ops =>
      Option.bind (chanStep c op) (fun s =>
        Option.map (fun r => (r.1, s.2.toList ++ r.2)) (runTrace s.1 ops))

/-- The elements a sequence of operations sends, in order. -/
def sentList {α : Type} : List (ChanOp α) → List α
  | [] => []
  | .send x :: ops => x :: sentList ops
  | .recv :: ops => sentList ops

/-- A send on a single channel, as the producer operations perform it:
some new channel when space is available, none when the producer blocks. -/
def trySend {α : Type} (c : Chan α) (x : α) : Option (Chan α) :=
  if c.buf.length < c.cap then some { c with buf := c.buf ++ [x] } else none

/-- The Logger value (logger source lines 11-17): the three channels (the
error channel carries a nilable error, modelled as Option String), the
sync.Once flag, and observable counters for the running consumer tasks and
the open handles per sink. -/
structure LoggerModel where
  errChan : Chan (Option String)
  warnChan : Chan String
  infoChan : Chan String
  onceDone : Bool
  consumers : Nat
  errSinkHandles : Nat
  warnSinkHandles : Nat
  infoSinkHandles : Nat
deriving DecidableEq

/-- NewLogger (logger source lines 31-37): three channels of capacity 100,
the once flag fresh, nothing started and no sink opened yet. -/
def NewLogger : LoggerModel :=
  { errChan := { cap := 100, buf := [] }
    warnChan := { cap := 100, buf := [] }
    infoChan := { cap := 100, buf := [] }
    onceDone := false
    consumers := 0
    errSinkHandles := 0
    warnSinkHandles := 0
    infoSinkHandles := 0 }

/-- StartListener (logger source lines 45-78): the whole body runs under
l.once.Do, so when the once flag is already consumed the call is a no-op;
otherwise it opens the three sink files and spawns the one consumer task. -/
def StartListener (l : LoggerModel) : LoggerModel :=
  if l.onceDone then l
  else
    { l with
      onceDone := true
      consumers := l.consumers + 1
      errSinkHandles := l.errSinkHandles + 1
      warnSinkHandles := l.warnSinkHandles + 1
      infoSinkHandles := l.infoSinkHandles + 1 }

/-- Logger.Error (lines 89-91): sends the error, nil included, on errChan. -/
def LoggerModel.Error (l : LoggerModel) (e : Option String) : Option LoggerModel :=
  Option.map (fun c => { l with errChan := c }) (trySend l.errChan e)

/-- Logger.ErrorF (lines 93-95): sends fmt.Errorf of the format and the
arguments, which is never nil; msg stands for the formatted text. -/
def LoggerModel.ErrorF (l : LoggerModel) (msg : String) : Option LoggerModel :=
  Option.map (fun c => { l with errChan := c }) (trySend l.errChan (some msg))

/-- Logger.ErrorStr (lines 97-99): same body as ErrorF. -/
def LoggerModel.ErrorStr (l : LoggerModel) (msg : String) : Option LoggerModel :=
  Option.map (fun c => { l with errChan := c }) (trySend l.errChan (some msg))

/-- Logger.Warn (lines 101-103): sends the string on warnChan. -/
def LoggerModel.Warn (l : LoggerModel) (w : String) : Option LoggerModel :=
  Option.map (fun c => { l with warnChan := c }) (trySend l.warnChan w)

/-- Logger.WarnF (lines 105-107): sends the formatted string on warnChan. -/
def LoggerModel.WarnF (l : LoggerModel) (w : String) : Option LoggerModel :=
  Option.map (fun c => { l with warnChan := c }) (trySend l.warnChan w)

/-- Logger.Info (lines 109-111): sends the string on infoChan. -/
def LoggerModel.Info (l : LoggerModel) (i : String) : Option LoggerModel :=
  Option.map (fun c => { l with infoChan := c }) (trySend l.infoChan i)

/-- Logger.InfoF (lines 113-115): sends the formatted string on infoChan. -/
def LoggerModel.InfoF (l : LoggerModel) (i : String) : Option LoggerModel :=
  Option.map (fun c => { l with infoChan := c }) (trySend l.infoChan i)

/-- One record as the consumer select loop receives it: an error (nilable),
a warning, or an info message. -/
inductive DiagRecord where
  | err (e : Option String)
  | warn (w : String)
  | info (i : String)
deriving DecidableEq

/-- The durable sinks plus the mirrored standard-output stream, each as the
list of lines written so far. -/
structure SinkState where
  errorSink : List String
  warningSink : List String
  infoSink : List String
  stdout : List String
deriving DecidableEq

/-- One iteration of the consumer select loop (logger source lines 60-75):
an error is checked for nil before anything is written (a nil error produces
no write at all); every written record is also mirrored to standard output. -/
def consumeRecord (st : SinkState) : DiagRecord → SinkState
  | .err none => st
  | .err (some e) =>
      { st with errorSink := st.errorSink ++ [e], stdout := st.stdout ++ [e] }
  | .warn w =>
      { st with warningSink := st.warningSink ++ [w], stdout := st.stdout ++ [w] }
  | .info i =>
      { st with infoSink := st.infoSink ++ [i], stdout := st.stdout ++ [i] }

/-- The consumer draining a sequence of records in order. -/
def drain (st : SinkState) (recs : List DiagRecord) : SinkState :=
  List.foldl consumeRecord st recs

/-! ## Concrete instances used by the closed theorems -/

/-- A populated claim set carrying the given role. -/
def sampleClaims (role : String) : MyCustomClaims :=
  { Id := 7
    FirstName := { string := "", valid := false }
    LastName := { string := "", valid := false }
    Role := role
    type := "access" }

/-- Semantics of a well-formed, unexpired HS256 token signed with the given
key and carrying the given role. -/
def sampleSem (key role : String) : TokenSemantics :=
  { decodeOk := true
    alg := .HS256
    signedWith := key
    expired := false
    claims := sampleClaims role }

/-- A stand-in wrapped handler for instantiating the middleware theorems. -/
def nextStub : Request → HandlerOutput :=
  fun _ => rejectOutput "next" 200

/-- The end-to-end request of the spec: an authorized GET to the path
/orders/42?x=1. -/
def c1Req : Request :=
  { method := "GET"
    url := parseRequestURI "/orders/42?x=1"
    header := [("Authorization", "Bearer a.b.c")]
    body := "" }

/-- An environment in which construction, dispatch and body streaming all
succeed and the upstream answers 200. -/
def c1Env : ProxyEnv :=
  { newRequestOk := true
    doResult := some { statusCode := 200, header := [], body := "id42" }
    copyOk := true
    truncatedBody := "" }

/-- An authorized GET whose upstream exchange will fail while streaming. -/
def c2Req : Request :=
  { method := "GET"
    url := parseRequestURI "/orders/42"
    header := [("Authorization", "Bearer a.b.c")]
    body := "" }

/-- An environment in which the upstream answers 200 but io.Copy fails after
relaying a four-byte chunk. -/
def c2Env : ProxyEnv :=
  { newRequestOk := true
    doResult := some { statusCode := 200
                       header := [("Content-Type", "application/json")]
                       body := "id42" }
    copyOk := false
    truncatedBody := "id4" }

/-- A request with no Authorization header at all. -/
def c3Req : Request :=
  { method := "GET"
    url := parseRequestURI "/orders/42"
    header := []
    body := "" }

/-- A request with a well-formed bearer token string. -/
def c4Req : Request :=
  { method := "GET"
    url := parseRequestURI "/orders/42"
    header := [("Authorization", "Bearer a.b.c")]
    body := "" }

/-- The upstream response used by the forwarding witness. -/
def c6Resp : UpstreamResponse :=
  { statusCode := 201
    header := [("X-R", "v")]
    body := "payload" }

/-- Environment for the forwarding witness: dispatch succeeds and the body
streams completely. -/
def c6Env : ProxyEnv :=
  { newRequestOk := true
    doResult := some c6Resp
    copyOk := true
    truncatedBody := "" }

/-- An inbound POST carrying a repeated header key. -/
def c6Req : Request :=
  { method := "POST"
    url := parseRequestURI "/route"
    header := [("X-A", "1"), ("X-A", "2")]
    body := "payload-in" }

/-- A logger whose error channel is at capacity. -/
def fullErrLogger : LoggerModel :=
  { NewLogger with errChan := { cap := 100, buf := List.replicate 100 none } }

/-- A request whose Authorization header is exactly the Bearer prefix with
no token after it. -/
def c10Req : Request :=
  { method := "GET"
    url := parseRequestURI "/orders/42"
    header := [("Authorization", "Bearer ")]
    body := "" }

/-! ## Helper lemmas -/

/-- In is the boolean any-equal test over the candidate list. -/
lemma In_eq_any {T : Type} [BEq T] (item : T) (l : List T) :
    In item l = l.any (fun i => i == item) := by
  induction l with
  | nil => rfl
  | cons i rest ih =>
    rw [In, List.any_cons]
    cases hb : i == item <;> simp [hb, ih]

/-- For a lawful equality test, In decides list membership, that is, exact
equality against one of the listed values. -/
lemma In_iff_mem {T : Type} [BEq T] [LawfulBEq T] (item : T) (l : List T) :
    In item l = true ↔ item ∈ l := by
  rw [In_eq_any, List.any_eq_true]
  constructor
  · rintro ⟨i, hi, he⟩
    exact (eq_of_beq he) ▸ hi
  · intro hm
    exact ⟨item, hm, beq_self_eq_true item⟩

/-- Inversion of a successful parse: the token had three segments that
decoded, the declared algorithm was in the HMAC family, the signature was
produced with the configured secret, and the claims were not expired. -/
lemma parseWithClaims_ok_inv (secret : String) (sem : TokenSemantics) (s : String)
    (cl : MyCustomClaims) (h : parseWithClaims secret sem s = ParseResult.ok cl) :
    segmentsOk s = true ∧ sem.decodeOk = true ∧ sem.alg.isHMAC = true ∧
      sem.signedWith = secret ∧ sem.expired = false := by
  unfold parseWithClaims at h
  by_cases h1 : segmentsOk s = true
  case neg => rw [if_neg h1] at h; exact absurd h (by simp)
  rw [if_pos h1] at h
  by_cases h2 : sem.decodeOk = true
  case neg => rw [if_neg h2] at h; exact absurd h (by simp)
  rw [if_pos h2] at h
  by_cases h3 : sem.alg.isHMAC = true
  case neg => rw [if_neg h3] at h; exact absurd h (by simp)
  rw [if_pos h3] at h
  by_cases h4 : (sem.signedWith == secret) = true
  case neg => rw [if_neg h4] at h; exact absurd h (by simp)
  rw [if_pos h4] at h
  by_cases h5 : sem.expired = true
  case pos => rw [if_pos h5] at h; exact absurd h (by simp)
  exact ⟨h1, h2, h3, eq_of_beq h4, Bool.eq_false_iff.mpr h5⟩

/-- The header-copy loop appends the source pairs, in order, after the
destination pairs. -/
lemma copyHeaders_eq_append (src dst : Header) : copyHeaders src dst = dst ++ src := by
  induction src generalizing dst with
  | nil => simp [copyHeaders]
  | cons p ps ih =>
    rw [copyHeaders, List.foldl_cons]
    rw [show List.foldl (fun (d : Header) p => headerAdd d p.1 p.2) (headerAdd dst p.1 p.2) ps =
          copyHeaders ps (headerAdd dst p.1 p.2) from rfl]
    rw [ih, headerAdd]
    simp

/-- The values stored under a key distribute over concatenation of header
lists. -/
lemma headerValues_append (h1 h2 : Header) (k : String) :
    headerValues (h1 ++ h2) k = headerValues h1 k ++ headerValues h2 k := by
  simp [headerValues, List.filter_append]

/-- Copying headers is additive at every key: the values already present are
kept, the copied values are appended after them. -/
lemma headerValues_copy (src dst : Header) (k : String) :
    headerValues (copyHeaders src dst) k = headerValues dst k ++ headerValues src k := by
  rw [copyHeaders_eq_append, headerValues_append]

/-- Copying onto the fresh outbound header map reproduces the source values
at every key. -/
lemma headerValues_copy_empty (h : Header) (k : String) :
    headerValues (copyHeaders h emptyHeader) k = headerValues h k := by
  rw [headerValues_copy]
  simp [headerValues, emptyHeader]

/-- Once the once flag is consumed, any number of further StartListener
calls leaves the logger unchanged. -/
lemma startListener_fix (n : Nat) (l : LoggerModel) (h : l.onceDone = true) :
    StartListener^[n] l = l := by
  induction n with
  | zero => rfl
  | succ n ih =>
    have hl : StartListener l = l := by simp [StartListener, h]
    rw [Function.iterate_succ_apply, hl, ih]

/-- Soundness of a successful channel trace: the elements received followed
by those still buffered are exactly the initial buffer followed by all the
elements sent, in order (FIFO and nothing lost); the capacity is unchanged;
and the buffer never ends above a capacity it started within. -/
lemma runTrace_spec {α : Type} (ops : List (ChanOp α)) (c c' : Chan α) (outs : List α)
    (h : runTrace c ops = some (c', outs)) :
    outs ++ c'.buf = c.buf ++ sentList ops ∧ c'.cap = c.cap ∧
      (c.buf.length ≤ c.cap → c'.buf.length ≤ c.cap) := by
  induction ops generalizing c outs with
  | nil =>
    simp only [runTrace, Option.some.injEq, Prod.mk.injEq] at h
    obtain ⟨h1, h2⟩ := h
    subst h1
    subst h2
    simp [sentList]
  | cons op ops ih =>
    cases op with
    | send x =>
      rw [runTrace] at h
      by_cases hlt : c.buf.length < c.cap
      · rw [show chanStep c (ChanOp.send x) =
              some ({ c with buf := c.buf ++ [x] }, none) from by
            simp [chanStep, hlt]] at h
        rw [Option.some_bind] at h
        cases hr : runTrace { c with buf := c.buf ++ [x] } ops with
        | none => rw [hr] at h; exact absurd h (by simp)
        | some p =>
          obtain ⟨c'', outs'⟩ := p
          rw [hr] at h
          simp only [Option.map_some', Option.toList_none, List.nil_append,
            Option.some.injEq, Prod.mk.injEq] at h
          obtain ⟨hc, ho⟩ := h
          subst hc
          subst ho
          obtain ⟨ih1, ih2, ih3⟩ := ih _ _ hr
          refine ⟨?_, by simpa using ih2, ?_⟩
          · rw [ih1]
            simp [sentList]
          · intro _
            refine ih3 ?_
            simp only [List.length_append, List.length_cons, List.length_nil]
            omega
      · rw [show chanStep c (ChanOp.send x) = none from by simp [chanStep, hlt]] at h
        exact absurd h (by simp)
    | recv =>
      rw [runTrace] at h
      cases hb : c.buf with
      | nil =>
        rw [show chanStep c ChanOp.recv = none from by simp [chanStep, hb]] at h
        exact absurd h (by simp)
      | cons y rest =>
        rw [show chanStep c ChanOp.recv = some ({ c with buf := rest }, some y) from by
              simp [chanStep, hb]] at h
        rw [Option.some_bind] at h
        cases hr : runTrace { c with buf := rest } ops with
        | none => rw [hr] at h; exact absurd h (by simp)
        | some p =>
          obtain ⟨c'', outs'⟩ := p
          rw [hr] at h
          simp only [Option.map_some', Option.toList_some, Option.some.injEq,
            Prod.mk.injEq] at h
          obtain ⟨hc, ho⟩ := h
          subst hc
          subst ho
          obtain ⟨ih1, ih2, ih3⟩ := ih _ _ hr
          have ih1' : outs' ++ c''.buf = rest ++ sentList ops := by simpa using ih1
          refine ⟨?_, by simpa using ih2, ?_⟩
          · simp only [List.nil_append, List.cons_append, sentList]
            rw [ih1']
          · intro hcap
            refine ih3 ?_
            simp only [List.length_cons] at hcap
            show rest.length ≤ c.cap
            omega


/-! ## Claims -/

/-- Claim C1. The specification requires the outbound request URL to be the
configured origin concatenated with the full inbound path including any query
component, with /orders/42?x=1 forwarded to origin/orders/42?x=1. proxyHandler
instead computes targetDomain ++ r.URL.Path (src/auth/main.go:90), and the URL
path field excludes the query component, so at the concrete input of the claim
the outbound URL is origin/orders/42: the query is dropped. -/
theorem c1_outbound_url_drops_query :
    parseRequestURI "/orders/42?x=1" = { path := "/orders/42", rawQuery := "x=1" } ∧
    Option.map OutRequest.url (proxyHandler "http://upstream" c1Env c1Req).outbound =
      some "http://upstream/orders/42" ∧
    "http://upstream" ++ requestURI (parseRequestURI "/orders/42?x=1") =
      "http://upstream/orders/42?x=1" ∧
    ¬ Option.map OutRequest.url (proxyHandler "http://upstream" c1Env c1Req).outbound =
      some ("http://upstream" ++ requestURI (parseRequestURI "/orders/42?x=1")) := by
  refine ⟨by decide, by decide, by decide, by decide⟩

/-- Claim C2. The specification says that once the upstream status has been
written, a failure while streaming the body must only emit an Error
diagnostic, with no new status code or error response written to the client.
The code (src/auth/main.go:123-126) additionally calls http.Error with status
500 after w.WriteHeader has committed the response: at a concrete failing
stream the event trace ends with that http.Error write, after the committed
status and the truncated body chunk. -/
theorem c2_http_error_written_after_commit :
    (proxyHandler "http://upstream" c2Env c2Req).events =
      [WriteEvent.headerAdd "Content-Type" "application/json",
       WriteEvent.writeHeader 200,
       WriteEvent.writeBody "id4",
       WriteEvent.httpError "Error proxying response" 500] ∧
    (proxyHandler "http://upstream" c2Env c2Req).diagnostics =
      ["Error proxying response: %v"] := by
  refine ⟨by decide, by decide⟩

/-- Claim C3. When the Authorization header is absent or empty (Header.Get
returns the empty string in both cases), the gate answers 401 with body
Missing token, the wrapped forwarding handler is never invoked (for any
wrapped handler the result is the bare rejection, with no outbound request
and no dispatch) and no diagnostic is emitted. -/
theorem c3_missing_token_rejected (secret : String) (sem : TokenSemantics)
    (next : Request → HandlerOutput) (r : Request)
    (h : headerGet r.header "Authorization" = "") :
    validateJWT secret sem next r = rejectOutput "Missing token" 401 ∧
    (validateJWT secret sem next r).outbound = none ∧
    (validateJWT secret sem next r).dispatched = false ∧
    (validateJWT secret sem next r).diagnostics = [] := by
  have h1 : validateJWT secret sem next r = rejectOutput "Missing token" 401 := by
    unfold validateJWT
    rw [h]
    rfl
  refine ⟨h1, ?_, ?_, ?_⟩ <;> simp [h1, rejectOutput]

/-- Witness for C3 at a concrete request with no Authorization header. -/
theorem c3_missing_token_witness :
    validateJWT "k" (sampleSem "k" "ADMIN") nextStub c3Req =
      rejectOutput "Missing token" 401 ∧
    (validateJWT "k" (sampleSem "k" "ADMIN") nextStub c3Req).dispatched = false :=
  ⟨(c3_missing_token_rejected "k" (sampleSem "k" "ADMIN") nextStub c3Req rfl).1,
   (c3_missing_token_rejected "k" (sampleSem "k" "ADMIN") nextStub c3Req rfl).2.2.1⟩

/-- Claim C4. A nonempty Authorization header whose token is signed with a
key other than the configured secret, or declares a non-HMAC algorithm, or is
structurally malformed (wrong segment count or undecodable segments), or is
expired, is rejected with 401 Invalid token and nothing is forwarded. -/
theorem c4_invalid_token_rejected (secret : String) (sem : TokenSemantics)
    (next : Request → HandlerOutput) (r : Request)
    (hne : ¬ headerGet r.header "Authorization" = "")
    (hbad : sem.signedWith ≠ secret ∨ sem.alg.isHMAC = false ∨
        segmentsOk (trimPrefixStr (headerGet r.header "Authorization") "Bearer ") = false ∨
        sem.decodeOk = false ∨ sem.expired = true) :
    validateJWT secret sem next r = rejectOutput "Invalid token" 401 := by
  have hb : (headerGet r.header "Authorization" == "") = false :=
    beq_eq_false_iff_ne.mpr hne
  cases hp : parseWithClaims secret sem
      (trimPrefixStr (headerGet r.header "Authorization") "Bearer ") with
  | ok cl =>
      obtain ⟨h1, h2, h3, h4, h5⟩ := parseWithClaims_ok_inv _ _ _ _ hp
      rcases hbad with hB | hB | hB | hB | hB
      · exact absurd h4 hB
      · rw [h3] at hB; exact absurd hB (by simp)
      · rw [h1] at hB; exact absurd hB (by simp)
      · rw [h2] at hB; exact absurd hB (by simp)
      · rw [h5] at hB; exact absurd hB (by simp)
  | malformed => simp [validateJWT, hb, hp]
  | badAlg => simp [validateJWT, hb, hp]
  | badSignature => simp [validateJWT, hb, hp]
  | expired => simp [validateJWT, hb, hp]

/-- Witness for C4: a well-formed token signed with a different key. -/
theorem c4_invalid_token_witness :
    validateJWT "k" (sampleSem "other" "ADMIN") nextStub c4Req =
      rejectOutput "Invalid token" 401 :=
  c4_invalid_token_rejected "k" (sampleSem "other" "ADMIN") nextStub c4Req
    (by decide) (Or.inl (by decide))

/-- Claim C5. A request whose token verifies but whose role claim is outside
the fixed allow-set is rejected with 403 Forbidden and not forwarded, and In
decides membership in the allow-set by exact string equality against the six
listed values. -/
theorem c5_forbidden_role (secret : String) (sem : TokenSemantics)
    (next : Request → HandlerOutput) (r : Request)
    (hne : ¬ headerGet r.header "Authorization" = "")
    (hok : parseWithClaims secret sem
        (trimPrefixStr (headerGet r.header "Authorization") "Bearer ") =
          ParseResult.ok sem.claims)
    (hrole : sem.claims.Role ∉ allowedRoles) :
    validateJWT secret sem next r = rejectOutput "Forbidden" 403 ∧
    (∀ role : String, In role allowedRoles = true ↔
      (role = "ADMIN" ∨ role = "USER" ∨ role = "COURIER" ∨
       role = "MANAGER" ∨ role = "CLIENT" ∨ role = "VENDOR")) := by
  have hb : (headerGet r.header "Authorization" == "") = false :=
    beq_eq_false_iff_ne.mpr hne
  have hin : In sem.claims.Role allowedRoles = false := by
    rw [Bool.eq_false_iff]
    intro hI
    exact hrole ((In_iff_mem sem.claims.Role allowedRoles).mp hI)
  constructor
  · simp [validateJWT, hb, hok, hin]
  · intro role
    rw [In_iff_mem]
    simp [allowedRoles]

/-- Witness for C5: a verified token whose role is HACKER. -/
theorem c5_forbidden_role_witness :
    validateJWT "k" (sampleSem "k" "HACKER") nextStub c4Req =
      rejectOutput "Forbidden" 403 ∧
    (In "HACKER" allowedRoles = true ↔
      ("HACKER" = "ADMIN" ∨ "HACKER" = "USER" ∨ "HACKER" = "COURIER" ∨
       "HACKER" = "MANAGER" ∨ "HACKER" = "CLIENT" ∨ "HACKER" = "VENDOR")) :=
  ⟨(c5_forbidden_role "k" (sampleSem "k" "HACKER") nextStub c4Req
      (by decide) (by decide) (by decide)).1,
   (c5_forbidden_role "k" (sampleSem "k" "HACKER") nextStub c4Req
      (by decide) (by decide) (by decide)).2 "HACKER"⟩

/-- Claim C6. On every authorized request whose outbound construction
succeeds and whose dispatch yields a response: the outbound request carries
the inbound method; at every header key the outbound values are exactly the
inbound values (copied onto the fresh outbound header map); the copy loop is
additive at every key, appending after whatever the destination already
holds, never replacing; and on the response side every upstream header pair
is added, in order, before the status code is written. -/
theorem c6_transparent_forwarding (targetDomain : String) (env : ProxyEnv)
    (r : Request) (resp : UpstreamResponse)
    (hok : env.newRequestOk = true) (hdo : env.doResult = some resp) :
    Option.map OutRequest.method (proxyHandler targetDomain env r).outbound =
      some r.method ∧
    (∀ k : String, Option.map (fun q => headerValues q.header k)
        (proxyHandler targetDomain env r).outbound =
      some (headerValues r.header k)) ∧
    (∀ (src dst : Header) (k : String),
        headerValues (copyHeaders src dst) k =
          headerValues dst k ++ headerValues src k) ∧
    (proxyHandler targetDomain env r).events =
      List.map (fun p => WriteEvent.headerAdd p.1 p.2) resp.header ++
        WriteEvent.writeHeader resp.statusCode ::
          (if env.copyOk then [WriteEvent.writeBody resp.body]
           else [WriteEvent.writeBody env.truncatedBody,
                 WriteEvent.httpError "Error proxying response" 500]) := by
  refine ⟨?_, ?_, ?_, ?_⟩
  · by_cases hc : env.copyOk <;> simp [proxyHandler, hok, hdo, hc]
  · intro k
    by_cases hc : env.copyOk <;>
      simp [proxyHandler, hok, hdo, hc, headerValues_copy_empty]
  · intro src dst k
    exact headerValues_copy src dst k
  · by_cases hc : env.copyOk <;> simp [proxyHandler, hok, hdo, hc]

/-- Witness for C6 at a concrete POST with a repeated header key. -/
theorem c6_transparent_forwarding_witness :
    Option.map OutRequest.method
      (proxyHandler "http://upstream" c6Env c6Req).outbound = some "POST" ∧
    Option.map (fun q => headerValues q.header "X-A")
      (proxyHandler "http://upstream" c6Env c6Req).outbound = some ["1", "2"] ∧
    headerValues (copyHeaders [("X-A", "2")] [("X-A", "1")]) "X-A" = ["1", "2"] ∧
    (proxyHandler "http://upstream" c6Env c6Req).events =
      [WriteEvent.headerAdd "X-R" "v", WriteEvent.writeHeader 201,
       WriteEvent.writeBody "payload"] := by
  have H := c6_transparent_forwarding "http://upstream" c6Env c6Req c6Resp rfl rfl
  refine ⟨H.1, ?_, ?_, ?_⟩
  · exact (H.2.1 "X-A").trans (by decide)
  · exact (H.2.2.1 [("X-A", "2")] [("X-A", "1")] "X-A").trans (by decide)
  · exact H.2.2.2.trans (by decide)

/-- Claim C7. Starting the consumer any positive number of times from a fresh
logger leaves exactly one running consumer task and exactly one open handle
per sink, and every invocation after the first is a no-op (the once flag
makes StartListener the identity on any started logger). -/
theorem c7_start_listener_idempotent :
    (∀ n : Nat, 1 ≤ n → StartListener^[n] NewLogger = StartListener NewLogger) ∧
    (StartListener NewLogger).consumers = 1 ∧
    (StartListener NewLogger).errSinkHandles = 1 ∧
    (StartListener NewLogger).warnSinkHandles = 1 ∧
    (StartListener NewLogger).infoSinkHandles = 1 ∧
    (∀ l : LoggerModel, l.onceDone = true → StartListener l = l) := by
  refine ⟨?_, by decide, by decide, by decide, by decide, ?_⟩
  · intro n hn
    obtain ⟨m, rfl⟩ : ∃ m, n = m + 1 := ⟨n - 1, by omega⟩
    rw [Function.iterate_succ_apply]
    exact startListener_fix m (StartListener NewLogger) (by decide)
  · intro l h
    simp [StartListener, h]

/-- Witness for C7 at three invocations. -/
theorem c7_start_listener_witness :
    StartListener^[3] NewLogger = StartListener NewLogger ∧
    (StartListener NewLogger).consumers = 1 ∧
    StartListener (StartListener NewLogger) = StartListener NewLogger :=
  ⟨c7_start_listener_idempotent.1 3 (by decide),
   c7_start_listener_idempotent.2.1,
   c7_start_listener_idempotent.2.2.2.2.2 (StartListener NewLogger) (by decide)⟩

/-- Claim C8. A nil error record is a no-op for the consumer: processing it
leaves every sink and the mirrored standard-output stream untouched, and
appending a nil error to any drained sequence changes nothing. -/
theorem c8_nil_error_is_noop :
    (∀ st : SinkState, consumeRecord st (DiagRecord.err none) = st) ∧
    (∀ (st : SinkState) (recs : List DiagRecord),
        drain st (recs ++ [DiagRecord.err none]) = drain st recs) := by
  constructor
  · intro st
    rfl
  · intro st recs
    rw [drain, drain, List.foldl_append]
    rfl

/-- Witness for C8 at the empty sink state. -/
theorem c8_nil_error_witness :
    consumeRecord
        { errorSink := [], warningSink := [], infoSink := [], stdout := [] }
        (DiagRecord.err none) =
      { errorSink := [], warningSink := [], infoSink := [], stdout := [] } :=
  c8_nil_error_is_noop.1
    { errorSink := [], warningSink := [], infoSink := [], stdout := [] }

/-- Claim C9. NewLogger gives each of the three queues capacity exactly 100;
each of the seven submission operations is a channel send that returns none
(the producer blocks) whenever its queue is at capacity, and succeeds by
appending exactly the submitted record whenever there is space; and along any
executable trace of sends and receives the records received plus those still
buffered are exactly the initial buffer plus everything sent, in order: no
record is dropped, and a buffer within capacity stays within capacity. -/
theorem c9_capacity_and_backpressure :
    NewLogger.errChan.cap = 100 ∧
    NewLogger.warnChan.cap = 100 ∧
    NewLogger.infoChan.cap = 100 ∧
    (∀ (l : LoggerModel) (e : Option String),
        l.errChan.cap ≤ l.errChan.buf.length → LoggerModel.Error l e = none) ∧
    (∀ (l : LoggerModel) (m : String),
        l.errChan.cap ≤ l.errChan.buf.length → LoggerModel.ErrorF l m = none) ∧
    (∀ (l : LoggerModel) (m : String),
        l.errChan.cap ≤ l.errChan.buf.length → LoggerModel.ErrorStr l m = none) ∧
    (∀ (l : LoggerModel) (m : String),
        l.warnChan.cap ≤ l.warnChan.buf.length → LoggerModel.Warn l m = none) ∧
    (∀ (l : LoggerModel) (m : String),
        l.warnChan.cap ≤ l.warnChan.buf.length → LoggerModel.WarnF l m = none) ∧
    (∀ (l : LoggerModel) (m : String),
        l.infoChan.cap ≤ l.infoChan.buf.length → LoggerModel.Info l m = none) ∧
    (∀ (l : LoggerModel) (m : String),
        l.infoChan.cap ≤ l.infoChan.buf.length → LoggerModel.InfoF l m = none) ∧
    (∀ (c : Chan (Option String)) (x : Option String),
        c.buf.length < c.cap → trySend c x = some { c with buf := c.buf ++ [x] }) ∧
    (∀ (ops : List (ChanOp (Option String))) (c c' : Chan (Option String))
        (outs : List (Option String)), runTrace c ops = some (c', outs) →
          outs ++ c'.buf = c.buf ++ sentList ops ∧
            (c.buf.length ≤ c.cap → c'.buf.length ≤ c.cap)) := by
  refine ⟨rfl, rfl, rfl, ?_, ?_, ?_, ?_, ?_, ?_, ?_, ?_, ?_⟩
  · intro l e h
    simp [LoggerModel.Error, trySend, Nat.not_lt.mpr h]
  · intro l m h
    simp [LoggerModel.ErrorF, trySend, Nat.not_lt.mpr h]
  · intro l m h
    simp [LoggerModel.ErrorStr, trySend, Nat.not_lt.mpr h]
  · intro l m h
    simp [LoggerModel.Warn, trySend, Nat.not_lt.mpr h]
  · intro l m h
    simp [LoggerModel.WarnF, trySend, Nat.not_lt.mpr h]
  · intro l m h
    simp [LoggerModel.Info, trySend, Nat.not_lt.mpr h]
  · intro l m h
    simp [LoggerModel.InfoF, trySend, Nat.not_lt.mpr h]
  · intro c x h
    simp [trySend, h]
  · intro ops c c' outs h
    obtain ⟨h1, _, h3⟩ := runTrace_spec ops c c' outs h
    exact ⟨h1, h3⟩

/-- Witness for C9: a full error queue blocks Error, and a small concrete
trace loses nothing. -/
theorem c9_capacity_witness :
    NewLogger.errChan.cap = 100 ∧
    LoggerModel.Error fullErrLogger (some "boom") = none ∧
    [some "a"] ++ [none] =
      ([] : List (Option String)) ++
        sentList [ChanOp.send (some "a"), ChanOp.send none, ChanOp.recv] := by
  obtain ⟨h1, _, _, h4, _, _, _, _, _, _, _, h12⟩ := c9_capacity_and_backpressure
  refine ⟨h1, h4 fullErrLogger (some "boom") (by decide), ?_⟩
  exact (h12 [ChanOp.send (some "a"), ChanOp.send none, ChanOp.recv]
    { cap := 2, buf := [] } { cap := 2, buf := [none] } [some "a"] (by decide)).1

/-- Claim C10. A request whose Authorization header is exactly the string
Bearer followed by one space is not treated as a missing token: the emptiness
check sees the raw header before prefix stripping, the stripped remainder is
the empty string, the empty string fails parsing, and the response is 401
with body Invalid token, not Missing token. -/
theorem c10_bearer_prefix_only (secret : String) (sem : TokenSemantics)
    (next : Request → HandlerOutput) (r : Request)
    (h : headerGet r.header "Authorization" = "Bearer ") :
    trimPrefixStr (headerGet r.header "Authorization") "Bearer " = "" ∧
    validateJWT secret sem next r = rejectOutput "Invalid token" 401 ∧
    ¬ validateJWT secret sem next r = rejectOutput "Missing token" 401 := by
  have h2 : validateJWT secret sem next r = rejectOutput "Invalid token" 401 := by
    unfold validateJWT
    rw [h]
    rfl
  refine ⟨by rw [h]; rfl, h2, ?_⟩
  rw [h2]
  decide

/-- Witness for C10 at the concrete header value. -/
theorem c10_bearer_prefix_only_witness :
    validateJWT "k" (sampleSem "k" "ADMIN") nextStub c10Req =
      rejectOutput "Invalid token" 401 :=
  (c10_bearer_prefix_only "k" (sampleSem "k" "ADMIN") nextStub c10Req rfl).2.1

end ORS
